import Mathlib

/-
  Verification development for the N-body gravitational simulator
  (React/TypeScript repository, physics kernel in src/utils/physics.ts,
  UI state handling in src/hooks/useSimulation.ts and
  src/components/SimulationCanvas.tsx).

  Modelling conventions:
  * JavaScript numbers are modelled as real numbers (ℝ); Math.sqrt is
    modelled as Real.sqrt.
  * Body ids are JavaScript numbers used only for identity comparison;
    they are modelled as ℤ.
  * parseFloat is modelled by its result, an `Option ℝ` argument where
    `none` stands for a NaN parse result.
-/

namespace NBody

/-- Coordinate pair, mirrors `Vector = { x, y }` from src/types.ts. -/
structure Vec where
  x : ℝ
  y : ℝ

/-- Velocity pair, mirrors `Velocity = { vx, vy }` from src/types.ts. -/
structure Vel where
  vx : ℝ
  vy : ℝ

/-- A body, mirrors `Body` from src/types.ts. -/
structure Body where
  id : ℤ
  position : Vec
  velocity : Vel
  mass : ℝ
  radius : ℝ
  color : String

/-- Acceleration vector `{ ax, ay }` as returned by calculateAcceleration. -/
structure Accel where
  ax : ℝ
  ay : ℝ

/-- Gravitational constant, `export const G = 1.0` (src/consts.ts). -/
def G : ℝ := 1.0

/-- Fixed time step, `export const TIME_STEP = 0.1` (src/consts.ts). -/
def TIME_STEP : ℝ := 0.1

/-- Function `calculateDistanceSquared` from src/utils/physics.ts. -/
def calculateDistanceSquared (body1 body2 : Body) : ℝ :=
  let dx := body2.position.x - body1.position.x
  let dy := body2.position.y - body1.position.y
  dx * dx + dy * dy

/-- One iteration of the `for (const other of allBodies)` loop body of
`calculateAcceleration` (src/utils/physics.ts), acting on the running
accumulator `(totalAx, totalAy)`.  The softening constant `rMin`
(0.5 in src/utils/physics.ts, 0.01 in the second variant) is a
parameter. -/
noncomputable def accelStep (rMin : ℝ) (target : Body) (acc : Accel) (other : Body) : Accel :=
  if target.id = other.id then acc
  else
    let rSquared := calculateDistanceSquared target other
    let safeRSquared := rSquared + rMin * rMin
    let r := Real.sqrt safeRSquared
    let inverseR3 := 1.0 / (r * r * r)
    let dx := other.position.x - target.position.x
    let dy := other.position.y - target.position.y
    let magnitude := G * other.mass * inverseR3
    ⟨acc.ax + dx * magnitude, acc.ay + dy * magnitude⟩

/-- Function `calculateAcceleration` with the softening constant as a parameter:
the loop over `allBodies` starting from `totalAx = 0, totalAy = 0`. -/
noncomputable def calculateAccelerationWith (rMin : ℝ) (target : Body) (allBodies : List Body) : Accel :=
  allBodies.foldl (accelStep rMin target) ⟨0, 0⟩

/-- Function `calculateAcceleration` from src/utils/physics.ts (`rMin = 0.5`). -/
noncomputable def calculateAcceleration (target : Body) (allBodies : List Body) : Accel :=
  calculateAccelerationWith 0.5 target allBodies

/-- Function `calculateAcceleration` from the second physics variant (`rMin = 0.01`). -/
noncomputable def calculateAcceleration01 (target : Body) (allBodies : List Body) : Accel :=
  calculateAccelerationWith 0.01 target allBodies

/-- Loop body of `updateSimulation` (src/utils/physics.ts): advance one
body by one semi-implicit Euler step, accelerations taken from
`currentBodies` (the pre-step state). -/
noncomputable def updateBody (rMin : ℝ) (currentBodies : List Body) (body : Body) : Body :=
  let a := calculateAccelerationWith rMin body currentBodies
  let newVx := body.velocity.vx + a.ax * TIME_STEP
  let newVy := body.velocity.vy + a.ay * TIME_STEP
  let newX := body.position.x + newVx * TIME_STEP
  let newY := body.position.y + newVy * TIME_STEP
  { body with position := ⟨newX, newY⟩, velocity := ⟨newVx, newVy⟩ }

/-- Function `updateSimulation` with the softening constant as a parameter: the
push-loop over `currentBodies` is a map. -/
noncomputable def updateSimulationWith (rMin : ℝ) (currentBodies : List Body) : List Body :=
  currentBodies.map (updateBody rMin currentBodies)

/-- Function `updateSimulation` from src/utils/physics.ts (`rMin = 0.5`). -/
noncomputable def updateSimulation (currentBodies : List Body) : List Body :=
  updateSimulationWith 0.5 currentBodies

/-- Function `createBody` from src/utils/physics.ts. -/
def createBody (id : ℤ) (initialMass initialX initialY initialVx initialVy radius : ℝ) : Body :=
  { id := id
  , position := ⟨initialX, initialY⟩
  , velocity := ⟨initialVx, initialVy⟩
  , mass := initialMass
  , radius := radius
  , color := if id = 1 then "#FFD700" else if id = 2 then "#ADD8E6" else if id = 3 then "#90EE90" else "#FF6347" }

/-- Function `getInitialState` from src/utils/physics.ts (radius defaults to 5
when omitted at call sites). -/
def getInitialState (count : ℕ) : List Body :=
  if count = 2 then
    [ createBody 1 1000 0 0 0 0 8
    , createBody 2 1 150 0 0 3 4 ]
  else
    [ createBody 1 500 0 0 0 0 5
    , createBody 2 500 100 0 0 2 5
    , createBody 3 500 (-100) 0 0 (-2) 5 ]

/-- Spec-side contribution of one `other` body to the acceleration of
`target`, written from the words of the specification (section 4.1):
displacement `(dx, dy) = other.position - target.position`,
softened squared distance, `magnitude = G * other.mass / r^3`,
contribution `magnitude * (dx, dy)`. -/
noncomputable def accelContrib (rMin : ℝ) (target other : Body) : ℝ × ℝ :=
  let dx := other.position.x - target.position.x
  let dy := other.position.y - target.position.y
  let rSquaredSafe := dx ^ 2 + dy ^ 2 + rMin ^ 2
  let magnitude := G * other.mass / (Real.sqrt rSquaredSafe) ^ 3
  (magnitude * dx, magnitude * dy)

/-- Spec-side acceleration: the sum, over every body in the list other
than the target (those whose id differs from the target's id), of its
contribution, in list order. -/
noncomputable def accelSpec (rMin : ℝ) (target : Body) (allBodies : List Body) : Accel :=
  let others := allBodies.filter fun b => b.id ≠ target.id
  ⟨(others.map fun b => (accelContrib rMin target b).1).sum,
   (others.map fun b => (accelContrib rMin target b).2).sum⟩

/-- Spec-side single-body step (section 4.2): acceleration from the
pre-step state, then `v_new = v_old + a * dt`, then
`p_new = p_old + v_new * dt` (semi-implicit Euler); all other
attributes pass through unchanged. -/
noncomputable def semiImplicitStep (rMin : ℝ) (bodies : List Body) (body : Body) : Body :=
  let a := accelSpec rMin body bodies
  let vNew : Vel := ⟨body.velocity.vx + a.ax * TIME_STEP, body.velocity.vy + a.ay * TIME_STEP⟩
  let pNew : Vec := ⟨body.position.x + vNew.vx * TIME_STEP, body.position.y + vNew.vy * TIME_STEP⟩
  { body with position := pNew, velocity := vNew }

/-- Closed-form semi-implicit Euler update of the light body in the
two-body preset (mass-1000 body at the origin, mass-1 body at (150,0)
with velocity (0,3)): with G = 1, dt = 0.1, softening 0.5, the
acceleration is `(-150 * 1000 / r^3, 0)` with `r = sqrt(22500.25)`,
hence velocity `(-15000 / r^3, 3)` and position
`(150 - 1500 / r^3, 0.3)`. -/
noncomputable def lightClosedForm : Body :=
  { id := 2
  , position := ⟨150 - 1500 / Real.sqrt 22500.25 ^ 3, 0.3⟩
  , velocity := ⟨-(15000 / Real.sqrt 22500.25 ^ 3), 3⟩
  , mass := 1
  , radius := 4
  , color := "#ADD8E6" }

/-- Editable field names, mirrors `FieldName` from src/types.ts. -/
inductive FieldName where
  | x
  | y
  | vx
  | vy
  | mass
deriving DecidableEq

/-- Function `updateBodyValue` from src/hooks/useSimulation.ts: map
over the body list, leaving bodies with a different id unchanged and
writing `value` into the selected field of bodies with the given id. -/
def updateBodyValue (id : ℤ) (field : FieldName) (value : ℝ) (bodies : List Body) : List Body :=
  bodies.map fun body =>
    if body.id ≠ id then body
    else
      match field with
      | FieldName.mass => { body with mass := value }
      | FieldName.x => { body with position := { body.position with x := value } }
      | FieldName.y => { body with position := { body.position with y := value } }
      | FieldName.vx => { body with velocity := { body.velocity with vx := value } }
      | FieldName.vy => { body with velocity := { body.velocity with vy := value } }

/-- The two pieces of React state touched by `handleInputChange`:
the transient input strings and the committed `editableBodies`. -/
structure SimState where
  inputStrings : ℤ → FieldName → String
  editableBodies : List Body

/-- Function `handleInputChange` from src/hooks/useSimulation.ts: the
input string is always recorded; `parseFloat(valueString)` is modelled
by the `parsed` argument (`none` for a NaN result).  When the parse is
NaN or the string is a bare minus sign or empty, the committed bodies
are left untouched; otherwise a negative mass value is clamped to 0
and `updateBodyValue` commits the value. -/
noncomputable def handleInputChange (id : ℤ) (field : FieldName) (valueString : String)
    (parsed : Option ℝ) (s : SimState) : SimState :=
  let s1 : SimState :=
    { s with inputStrings := fun i f =>
        if i = id ∧ f = field then valueString else s.inputStrings i f }
  match parsed with
  | none => s1
  | some value =>
    if valueString = "-" ∨ valueString = "" then s1
    else
      let finalValue := if field = FieldName.mass ∧ value < 0 then (0 : ℝ) else value
      { s1 with editableBodies := updateBodyValue id field finalValue s1.editableBodies }

/-- Trail bookkeeping from the `animate` callback
(src/hooks/useSimulation.ts): push the new position onto the history,
then if the length exceeds 500 remove the front element (shift). -/
def pushTrail (history : List Vec) (p : Vec) : List Vec :=
  let pushed := history ++ [p]
  if 500 < pushed.length then pushed.tail else pushed

/-- Trail of one body after a sequence of animation frames, starting
from the empty history: each frame appends the body's new position via
`pushTrail`. -/
def trailAfter (positions : List Vec) : List Vec :=
  positions.foldl pushTrail []

/-- Two bodies whose positions and velocities are exact negations of
each other and whose masses agree (the symmetric two-body
configuration of the specification, section 8). -/
def MirrorPair (b1 b2 : Body) : Prop :=
  b2.mass = b1.mass ∧
  b2.position.x = -b1.position.x ∧ b2.position.y = -b1.position.y ∧
  b2.velocity.vx = -b1.velocity.vx ∧ b2.velocity.vy = -b1.velocity.vy

lemma accelStep_self (rMin : ℝ) (t : Body) (acc : Accel) (o : Body) (h : t.id = o.id) :
    accelStep rMin t acc o = acc := by
  unfold accelStep
  rw [if_pos h]

lemma accelStep_eq_contrib (rMin : ℝ) (t : Body) (acc : Accel) (o : Body) (h : ¬ t.id = o.id) :
    accelStep rMin t acc o =
      ⟨acc.ax + (accelContrib rMin t o).1, acc.ay + (accelContrib rMin t o).2⟩ := by
  have harg : (o.position.x - t.position.x) * (o.position.x - t.position.x) +
      (o.position.y - t.position.y) * (o.position.y - t.position.y) + rMin * rMin =
      (o.position.x - t.position.x) ^ 2 + (o.position.y - t.position.y) ^ 2 + rMin ^ 2 := by
    ring
  simp only [accelStep, accelContrib, calculateDistanceSquared, if_neg h, harg]
  simp only [Accel.mk.injEq]
  constructor <;> ring

lemma foldl_accelStep_eq (rMin : ℝ) (t : Body) (l : List Body) :
    ∀ acc : Accel,
      l.foldl (accelStep rMin t) acc =
        ⟨acc.ax + ((l.filter fun b => b.id ≠ t.id).map fun b => (accelContrib rMin t b).1).sum,
         acc.ay + ((l.filter fun b => b.id ≠ t.id).map fun b => (accelContrib rMin t b).2).sum⟩ := by
  induction l with
  | nil => intro acc; simp
  | cons o l ih =>
    intro acc
    by_cases h : t.id = o.id
    · rw [List.foldl_cons, accelStep_self rMin t acc o h, ih]
      have h' : ¬ (o.id ≠ t.id) := fun hne => hne h.symm
      simp [List.filter_cons, h']
    · rw [List.foldl_cons, accelStep_eq_contrib rMin t acc o h, ih]
      have h' : o.id ≠ t.id := fun he => h he.symm
      simp [List.filter_cons, h']
      constructor <;> ring

lemma calculateAccelerationWith_eq_spec (rMin : ℝ) (t : Body) (l : List Body) :
    calculateAccelerationWith rMin t l = accelSpec rMin t l := by
  unfold calculateAccelerationWith accelSpec
  rw [foldl_accelStep_eq]
  simp

lemma accelContrib_mass_zero (rMin : ℝ) (t z : Body) (h : z.mass = 0) :
    accelContrib rMin t z = (0, 0) := by
  simp [accelContrib, h]

/-- Concrete heavy body of the two-body preset (mass 1000 at the origin). -/
def heavyBody : Body :=
  { id := 1, position := ⟨0, 0⟩, velocity := ⟨0, 0⟩, mass := 1000, radius := 8, color := "#FFD700" }

/-- Concrete mass-0 body at (150, 0) with velocity (0, 3). -/
def masslessBody : Body :=
  { id := 2, position := ⟨150, 0⟩, velocity := ⟨0, 3⟩, mass := 0, radius := 4, color := "#ADD8E6" }

/-- Concrete body sharing the id of `heavyBody` but with different
position and mass. -/
def sameIdBody : Body :=
  { id := 1, position := ⟨100, 0⟩, velocity := ⟨0, 0⟩, mass := 500, radius := 5, color := "#FF6347" }

/-- C2: for every target body and body list, `calculateAcceleration`
returns the sum, over every body in the list other than the target
(those whose id differs), of `magnitude * (dx, dy)` with
`magnitude = G * other.mass / sqrt(dx^2 + dy^2 + rMin^2)^3`, in list
order; stated for the parametric softening constant and for both
concrete variants (0.5 and 0.01). -/
theorem claim2_calculateAcceleration_is_softened_sum :
    ∀ (rMin : ℝ) (target : Body) (allBodies : List Body),
      calculateAccelerationWith rMin target allBodies = accelSpec rMin target allBodies ∧
      calculateAcceleration target allBodies = accelSpec 0.5 target allBodies ∧
      calculateAcceleration01 target allBodies = accelSpec 0.01 target allBodies := by
  intro rMin t l
  exact ⟨calculateAccelerationWith_eq_spec rMin t l,
    calculateAccelerationWith_eq_spec 0.5 t l,
    calculateAccelerationWith_eq_spec 0.01 t l⟩

/-- C10: `calculateAcceleration` excludes exactly the list entries whose
id equals the target's id: the result over a list equals the result
over the list with all same-id entries filtered out, and a list in
which every entry carries the target's id yields acceleration (0, 0). -/
theorem claim10_exclusion_is_by_id :
    ∀ (target : Body) (l : List Body),
      calculateAcceleration target l =
        calculateAcceleration target (l.filter fun b => b.id ≠ target.id) ∧
      ((∀ b ∈ l, b.id = target.id) → calculateAcceleration target l = ⟨0, 0⟩) := by
  intro t l
  constructor
  · unfold calculateAcceleration
    rw [calculateAccelerationWith_eq_spec, calculateAccelerationWith_eq_spec]
    simp [accelSpec, List.filter_filter]
  · intro hall
    unfold calculateAcceleration
    rw [calculateAccelerationWith_eq_spec]
    have hnil : (l.filter fun b => b.id ≠ t.id) = [] := by
      rw [List.filter_eq_nil_iff]
      intro b hb
      simp [hall b hb]
    simp only [accelSpec, hnil]
    simp

/-- Witness for C10 at a concrete list whose entries all share the
target's id. -/
theorem claim10_witness :
    calculateAcceleration heavyBody [heavyBody, sameIdBody] = ⟨0, 0⟩ :=
  (claim10_exclusion_is_by_id heavyBody [heavyBody, sameIdBody]).2
    (by intro b hb; fin_cases hb <;> rfl)

/-- C5: `updateSimulation` returns a list of the same length in the
same order, and at every position the output body's id, mass, radius
and color equal the input body's. -/
theorem claim5_only_position_velocity_change :
    ∀ l : List Body,
      (updateSimulation l).length = l.length ∧
      (updateSimulation l).map (fun b => (b.id, b.mass, b.radius, b.color)) =
        l.map fun b => (b.id, b.mass, b.radius, b.color) := by
  intro l
  constructor
  · simp [updateSimulation, updateSimulationWith]
  · unfold updateSimulation updateSimulationWith
    rw [List.map_map]
    rfl

lemma accel_heavy_eval : calculateAcceleration heavyBody [heavyBody, masslessBody] = ⟨0, 0⟩ := by
  norm_num [calculateAcceleration, calculateAccelerationWith, List.foldl, accelStep,
    calculateDistanceSquared, heavyBody, masslessBody, G]

lemma accel_massless_eval :
    calculateAcceleration masslessBody [heavyBody, masslessBody] =
      ⟨-(150000 / Real.sqrt 22500.25 ^ 3), 0⟩ := by
  simp only [calculateAcceleration, calculateAccelerationWith, List.foldl, accelStep,
    calculateDistanceSquared, heavyBody, masslessBody]
  simp
  rw [show (150 * 150 + 0.5 * 0.5 : ℝ) = 22500.25 from by norm_num]
  simp only [G]
  ring

lemma update_heavy_eval : (updateSimulation [heavyBody, masslessBody])[0]? = some heavyBody := by
  have hb : (updateSimulation [heavyBody, masslessBody])[0]? =
      some (updateBody 0.5 [heavyBody, masslessBody] heavyBody) := rfl
  have ha : calculateAccelerationWith 0.5 heavyBody [heavyBody, masslessBody] = ⟨0, 0⟩ :=
    accel_heavy_eval
  rw [hb]
  unfold updateBody
  rw [ha]
  simp [heavyBody, TIME_STEP]

lemma update_massless_eval :
    ((updateSimulation [heavyBody, masslessBody])[1]?.map fun b => (b.position.x, b.velocity.vx)) =
      some (150 - 1500 / Real.sqrt 22500.25 ^ 3, -(15000 / Real.sqrt 22500.25 ^ 3)) := by
  have hb : (updateSimulation [heavyBody, masslessBody])[1]? =
      some (updateBody 0.5 [heavyBody, masslessBody] masslessBody) := rfl
  have ha : calculateAccelerationWith 0.5 masslessBody [heavyBody, masslessBody] =
      ⟨-(150000 / Real.sqrt 22500.25 ^ 3), 0⟩ := accel_massless_eval
  rw [hb]
  unfold updateBody
  rw [ha]
  simp only [Option.map_some', Option.some.injEq, Prod.mk.injEq, masslessBody, TIME_STEP]
  constructor <;> ring

/-- C4: a mass-0 body in the list contributes exactly zero to any other
body's acceleration (removing it does not change the result), yet the
mass-0 body itself is accelerated and moved by the remaining bodies:
in the concrete heavy/massless pair, the heavy body is unaffected
while the massless body's x-position and x-velocity both change. -/
theorem claim4_mass_zero_no_force_but_moves :
    (∀ (rMin : ℝ) (target z : Body) (l1 l2 : List Body), z.mass = 0 →
        calculateAccelerationWith rMin target (l1 ++ z :: l2) =
          calculateAccelerationWith rMin target (l1 ++ l2)) ∧
    (updateSimulation [heavyBody, masslessBody])[0]? = some heavyBody ∧
    (((updateSimulation [heavyBody, masslessBody])[1]?.map fun b => (b.position.x, b.velocity.vx)) =
      some (150 - 1500 / Real.sqrt 22500.25 ^ 3, -(15000 / Real.sqrt 22500.25 ^ 3))) ∧
    150 - 1500 / Real.sqrt 22500.25 ^ 3 ≠ masslessBody.position.x ∧
    -(15000 / Real.sqrt 22500.25 ^ 3) ≠ masslessBody.velocity.vx := by
  have hr : (0:ℝ) < Real.sqrt 22500.25 := Real.sqrt_pos.mpr (by norm_num)
  refine ⟨?_, update_heavy_eval, update_massless_eval, ?_, ?_⟩
  · intro rMin t z l1 l2 hz
    rw [calculateAccelerationWith_eq_spec, calculateAccelerationWith_eq_spec]
    by_cases h : z.id = t.id
    · simp [accelSpec, List.filter_append, List.filter_cons, h]
    · simp [accelSpec, List.filter_append, List.filter_cons, h,
        accelContrib_mass_zero rMin t z hz]
  · have hx : masslessBody.position.x = 150 := rfl
    have hpos : 0 < 1500 / Real.sqrt 22500.25 ^ 3 := by positivity
    rw [hx]
    intro heq
    linarith
  · have hv : masslessBody.velocity.vx = 0 := rfl
    have hpos : 0 < 15000 / Real.sqrt 22500.25 ^ 3 := by positivity
    rw [hv]
    intro heq
    linarith [neg_eq_zero.mp heq]

/-- Witness for C4 at a concrete mass-0 body. -/
theorem claim4_witness :
    calculateAccelerationWith 0.5 heavyBody ([] ++ masslessBody :: []) =
      calculateAccelerationWith 0.5 heavyBody ([] ++ []) :=
  claim4_mass_zero_no_force_but_moves.1 0.5 heavyBody masslessBody [] [] rfl

lemma updateBody_eq_semiImplicitStep (rMin : ℝ) (l : List Body) (b : Body) :
    updateBody rMin l b = semiImplicitStep rMin l b := by
  unfold updateBody semiImplicitStep
  rw [calculateAccelerationWith_eq_spec]

/-- The light body of the two-body preset (mass 1 at (150, 0) with
velocity (0, 3)). -/
def lightBody : Body :=
  { id := 2, position := ⟨150, 0⟩, velocity := ⟨0, 3⟩, mass := 1, radius := 4, color := "#ADD8E6" }

lemma getInitialState_two : getInitialState 2 = [heavyBody, lightBody] := by
  norm_num [getInitialState, createBody, heavyBody, lightBody]

lemma accel_light_eval :
    calculateAcceleration lightBody [heavyBody, lightBody] =
      ⟨-(150000 / Real.sqrt 22500.25 ^ 3), 0⟩ := by
  simp only [calculateAcceleration, calculateAccelerationWith, List.foldl, accelStep,
    calculateDistanceSquared, heavyBody, lightBody]
  simp
  rw [show (150 * 150 + 0.5 * 0.5 : ℝ) = 22500.25 from by norm_num]
  simp only [G]
  ring

lemma update_light_eval :
    (updateSimulation (getInitialState 2))[1]? = some lightClosedForm := by
  rw [getInitialState_two]
  have hb : (updateSimulation [heavyBody, lightBody])[1]? =
      some (updateBody 0.5 [heavyBody, lightBody] lightBody) := rfl
  have ha : calculateAccelerationWith 0.5 lightBody [heavyBody, lightBody] =
      ⟨-(150000 / Real.sqrt 22500.25 ^ 3), 0⟩ := accel_light_eval
  rw [hb]
  unfold updateBody
  rw [ha]
  simp only [lightBody, lightClosedForm, TIME_STEP, Option.some.injEq, Body.mk.injEq,
    Vec.mk.injEq, Vel.mk.injEq]
  norm_num
  constructor <;> ring

/-- C1: `updateSimulation` advances every body by one semi-implicit
Euler step at the fixed time step, with accelerations computed from
the pre-step list; and for the two-body preset (mass 1000 at the
origin, mass 1 at (150, 0) with velocity (0, 3)), after one step the
light body equals the closed-form semi-implicit Euler update with
G = 1 and dt = 0.1. -/
theorem claim1_semi_implicit_euler_step :
    (∀ bodies : List Body, updateSimulation bodies = bodies.map (semiImplicitStep 0.5 bodies)) ∧
    (updateSimulation (getInitialState 2))[1]? = some lightClosedForm := by
  refine ⟨?_, update_light_eval⟩
  intro bodies
  unfold updateSimulation updateSimulationWith
  have hf : updateBody 0.5 bodies = semiImplicitStep 0.5 bodies :=
    funext fun b => updateBody_eq_semiImplicitStep 0.5 bodies b
  rw [hf]

lemma list_abs_sum_le {α : Type} (l : List α) (f g : α → ℝ) (h : ∀ x ∈ l, |f x| ≤ g x) :
    |(l.map f).sum| ≤ (l.map g).sum := by
  induction l with
  | nil => simp
  | cons a l ih =>
    simp only [List.map_cons, List.sum_cons]
    calc |f a + (l.map f).sum| ≤ |f a| + |(l.map f).sum| := abs_add _ _
      _ ≤ g a + (l.map g).sum :=
        add_le_add (h a (List.mem_cons_self a l))
          (ih fun x hx => h x (List.mem_cons_of_mem a hx))

lemma sum_map_filter_le {α : Type} (l : List α) (p : α → Bool) (g : α → ℝ)
    (hg : ∀ x ∈ l, 0 ≤ g x) : ((l.filter p).map g).sum ≤ (l.map g).sum := by
  induction l with
  | nil => simp
  | cons a l ih =>
    have ih' := ih fun x hx => hg x (List.mem_cons_of_mem a hx)
    by_cases h : p a
    · simp only [List.filter_cons, h, if_true, List.map_cons, List.sum_cons]
      exact add_le_add_left ih' (g a)
    · simp only [List.filter_cons, h, if_false, List.map_cons, List.sum_cons]
      exact le_add_of_nonneg_of_le (hg a (List.mem_cons_self a l)) ih'

lemma termBound_nonneg (rMin : ℝ) (b : Body) : 0 ≤ G * |b.mass| / rMin ^ 2 := by
  have hG : (0:ℝ) ≤ G := by norm_num [G]
  exact div_nonneg (mul_nonneg hG (abs_nonneg _)) (sq_nonneg _)

lemma accelContrib_bound (rMin : ℝ) (t o : Body) (hε : 0 < rMin) :
    |(accelContrib rMin t o).1| ≤ G * |o.mass| / rMin ^ 2 ∧
    |(accelContrib rMin t o).2| ≤ G * |o.mass| / rMin ^ 2 := by
  have hG : (0:ℝ) ≤ G := by norm_num [G]
  simp only [accelContrib]
  set dx := o.position.x - t.position.x with hdx_def
  set dy := o.position.y - t.position.y with hdy_def
  have hs_pos : (0:ℝ) < dx ^ 2 + dy ^ 2 + rMin ^ 2 := by positivity
  have hr_pos : 0 < Real.sqrt (dx ^ 2 + dy ^ 2 + rMin ^ 2) := Real.sqrt_pos.mpr hs_pos
  set r := Real.sqrt (dx ^ 2 + dy ^ 2 + rMin ^ 2) with hr_def
  have hrMin_le : rMin ≤ r := by
    rw [hr_def]
    calc rMin = Real.sqrt (rMin ^ 2) := (Real.sqrt_sq hε.le).symm
      _ ≤ Real.sqrt (dx ^ 2 + dy ^ 2 + rMin ^ 2) :=
        Real.sqrt_le_sqrt (by nlinarith [sq_nonneg dx, sq_nonneg dy])
  have habs_dx : |dx| ≤ r := by
    rw [hr_def, ← Real.sqrt_sq_eq_abs]
    exact Real.sqrt_le_sqrt (by nlinarith [sq_nonneg dy, sq_nonneg rMin])
  have habs_dy : |dy| ≤ r := by
    rw [hr_def, ← Real.sqrt_sq_eq_abs]
    exact Real.sqrt_le_sqrt (by nlinarith [sq_nonneg dx, sq_nonneg rMin])
  have key : ∀ d : ℝ, |d| ≤ r → |G * o.mass / r ^ 3 * d| ≤ G * |o.mass| / rMin ^ 2 := by
    intro d hd
    have habs : |G * o.mass / r ^ 3 * d| = G * |o.mass| / r ^ 3 * |d| := by
      rw [abs_mul, abs_div, abs_mul, abs_of_nonneg hG,
        abs_of_nonneg (by positivity : (0:ℝ) ≤ r ^ 3)]
    rw [habs]
    have h2 : G * |o.mass| / r ^ 3 * |d| ≤ G * |o.mass| / r ^ 3 * r :=
      mul_le_mul_of_nonneg_left hd (by positivity)
    have h3 : G * |o.mass| / r ^ 3 * r = G * |o.mass| / r ^ 2 := by
      field_simp
      ring
    have h4 : G * |o.mass| / r ^ 2 ≤ G * |o.mass| / rMin ^ 2 := by
      gcongr
    linarith
  exact ⟨key dx habs_dx, key dy habs_dy⟩

/-- C3: the integrator is total on well-formed input: the softened
squared distance is bounded below by the square of the positive
softening constant, its square root is strictly positive (the divisor
is never zero), and both acceleration components are finite, bounded
in absolute value by the sum of `G * |mass| / rMin^2` over the list. -/
theorem claim3_softening_keeps_acceleration_finite :
    ∀ (rMin : ℝ) (target : Body) (bodies : List Body), 0 < rMin →
      (∀ other : Body,
          rMin ^ 2 ≤ calculateDistanceSquared target other + rMin * rMin ∧
          0 < Real.sqrt (calculateDistanceSquared target other + rMin * rMin)) ∧
      |(calculateAccelerationWith rMin target bodies).ax| ≤
        (bodies.map fun b => G * |b.mass| / rMin ^ 2).sum ∧
      |(calculateAccelerationWith rMin target bodies).ay| ≤
        (bodies.map fun b => G * |b.mass| / rMin ^ 2).sum := by
  intro rMin t l hε
  have hbound : ∀ p : Body → Bool,
      |((l.filter p).map fun b => (accelContrib rMin t b).1).sum| ≤
        (l.map fun b => G * |b.mass| / rMin ^ 2).sum ∧
      |((l.filter p).map fun b => (accelContrib rMin t b).2).sum| ≤
        (l.map fun b => G * |b.mass| / rMin ^ 2).sum := by
    intro p
    constructor
    · calc |((l.filter p).map fun b => (accelContrib rMin t b).1).sum| ≤
          ((l.filter p).map fun b => G * |b.mass| / rMin ^ 2).sum :=
            list_abs_sum_le _ _ _ fun b _ => (accelContrib_bound rMin t b hε).1
        _ ≤ (l.map fun b => G * |b.mass| / rMin ^ 2).sum :=
            sum_map_filter_le _ _ _ fun b _ => termBound_nonneg rMin b
    · calc |((l.filter p).map fun b => (accelContrib rMin t b).2).sum| ≤
          ((l.filter p).map fun b => G * |b.mass| / rMin ^ 2).sum :=
            list_abs_sum_le _ _ _ fun b _ => (accelContrib_bound rMin t b hε).2
        _ ≤ (l.map fun b => G * |b.mass| / rMin ^ 2).sum :=
            sum_map_filter_le _ _ _ fun b _ => termBound_nonneg rMin b
  refine ⟨?_, ?_, ?_⟩
  · intro o
    have h0 : 0 ≤ calculateDistanceSquared t o := by
      simp only [calculateDistanceSquared]
      exact add_nonneg (mul_self_nonneg _) (mul_self_nonneg _)
    constructor
    · nlinarith
    · exact Real.sqrt_pos.mpr (by nlinarith)
  · rw [calculateAccelerationWith_eq_spec]
    simp only [accelSpec]
    exact (hbound _).1
  · rw [calculateAccelerationWith_eq_spec]
    simp only [accelSpec]
    exact (hbound _).2

/-- Witness for C3 with the softening constant 0.5 of the source. -/
theorem claim3_witness :
    (∀ other : Body,
        (0.5:ℝ) ^ 2 ≤ calculateDistanceSquared heavyBody other + 0.5 * 0.5 ∧
        0 < Real.sqrt (calculateDistanceSquared heavyBody other + 0.5 * 0.5)) ∧
    |(calculateAccelerationWith 0.5 heavyBody [masslessBody]).ax| ≤
      ([masslessBody].map fun b => G * |b.mass| / (0.5:ℝ) ^ 2).sum ∧
    |(calculateAccelerationWith 0.5 heavyBody [masslessBody]).ay| ≤
      ([masslessBody].map fun b => G * |b.mass| / (0.5:ℝ) ^ 2).sum :=
  claim3_softening_keeps_acceleration_finite 0.5 heavyBody [masslessBody] (by norm_num)

lemma trailAfter_append (ps : List Vec) (p : Vec) :
    trailAfter (ps ++ [p]) = pushTrail (trailAfter ps) p := by
  unfold trailAfter
  rw [List.foldl_append]
  rfl

lemma trailAfter_eq_drop (ps : List Vec) : trailAfter ps = ps.drop (ps.length - 500) := by
  induction ps using List.reverseRecOn with
  | nil => rfl
  | append_singleton ps p ih =>
    rw [trailAfter_append, ih]
    by_cases hn : ps.length + 1 ≤ 500
    · have h1 : ps.length - 500 = 0 := by omega
      have h2 : (ps ++ [p]).length - 500 = 0 := by
        simp
        omega
      rw [h1, h2, List.drop_zero, List.drop_zero]
      unfold pushTrail
      rw [if_neg (by simp; omega)]
    · have hlen : (ps.drop (ps.length - 500)).length = 500 := by
        rw [List.length_drop]
        omega
      unfold pushTrail
      have hcond : 500 < (ps.drop (ps.length - 500) ++ [p]).length := by
        rw [List.length_append, hlen, List.length_singleton]
        omega
      rw [if_pos hcond]
      cases hd : ps.drop (ps.length - 500) with
      | nil => rw [hd] at hlen; simp at hlen
      | cons a l' =>
        have htail : (a :: l') ++ [p] = a :: (l' ++ [p]) := rfl
        rw [htail, List.tail_cons]
        have hle : (ps ++ [p]).length - 500 = (ps.length - 500) + 1 := by
          rw [List.length_append, List.length_singleton]
          omega
        rw [hle, List.drop_append_of_le_length (by omega)]
        have hl' : l' = ps.drop (ps.length - 500 + 1) := by
          rw [← List.tail_drop, hd, List.tail_cons]
        rw [hl']

/-- C9: starting from an empty trail, after any sequence of frames the
trail is exactly the most recent at-most-500 positions in order (the
suffix of the pushed positions), hence its length never exceeds 500,
and each frame's eviction (when the cap is exceeded) removes exactly
the front element. -/
theorem claim9_trail_capped_at_500 :
    ∀ ps : List Vec,
      trailAfter ps = ps.drop (ps.length - 500) ∧
      (trailAfter ps).length ≤ 500 ∧
      (trailAfter ps).length = min ps.length 500 ∧
      (∀ (h : List Vec) (p : Vec), 500 < (h ++ [p]).length → pushTrail h p = (h ++ [p]).tail) := by
  intro ps
  have hd := trailAfter_eq_drop ps
  have hlen : (trailAfter ps).length = min ps.length 500 := by
    rw [hd, List.length_drop]
    omega
  refine ⟨hd, ?_, hlen, ?_⟩
  · rw [hlen]
    omega
  · intro h p hgt
    unfold pushTrail
    rw [if_pos hgt]

/-- Origin position used by the C9 witness. -/
def wVec : Vec := ⟨0, 0⟩

/-- A full 500-entry history used by the C9 witness. -/
def wHist : List Vec := List.replicate 500 wVec

/-- Witness for C9: the eviction clause at a concrete full history. -/
theorem claim9_witness : pushTrail wHist wVec = (wHist ++ [wVec]).tail :=
  (claim9_trail_capped_at_500 []).2.2.2 wHist wVec
    (by simp only [wHist, List.length_append, List.length_replicate, List.length_singleton]; omega)

/-- Concrete simulation state for witnesses: one heavy body, all input
strings empty. -/
def sampleState : SimState := ⟨fun _ _ => "", [heavyBody]⟩

/-- C6: invalid numeric text input (a NaN parse result, a bare minus
sign, or the empty string) leaves the committed `editableBodies`
unchanged, and a body field is committed (via `updateBodyValue`) only
when the text parses to a valid number. -/
theorem claim6_invalid_input_leaves_bodies_unchanged :
    ∀ (id : ℤ) (field : FieldName) (valueString : String) (parsed : Option ℝ) (s : SimState),
      ((parsed = none ∨ valueString = "-" ∨ valueString = "") →
        (handleInputChange id field valueString parsed s).editableBodies = s.editableBodies) ∧
      (∀ v : ℝ, parsed = some v → valueString ≠ "-" → valueString ≠ "" →
        (handleInputChange id field valueString parsed s).editableBodies =
          updateBodyValue id field
            (if field = FieldName.mass ∧ v < 0 then 0 else v) s.editableBodies) := by
  intro id field vs parsed s
  constructor
  · rintro (h | h | h)
    · subst h
      rfl
    · cases parsed with
      | none => rfl
      | some v => simp [handleInputChange, h]
    · cases parsed with
      | none => rfl
      | some v => simp [handleInputChange, h]
  · intro v hv h1 h2
    subst hv
    simp [handleInputChange, h1, h2]

/-- Witness for C6: a bare minus sign with a NaN parse commits nothing,
while the text "2" parsing to 2 commits via updateBodyValue. -/
theorem claim6_witness :
    ((handleInputChange 1 FieldName.x "-" none sampleState).editableBodies =
      sampleState.editableBodies) ∧
    ((handleInputChange 1 FieldName.x "2" (some 2) sampleState).editableBodies =
      updateBodyValue 1 FieldName.x
        (if FieldName.x = FieldName.mass ∧ (2:ℝ) < 0 then 0 else 2)
        sampleState.editableBodies) :=
  ⟨(claim6_invalid_input_leaves_bodies_unchanged 1 FieldName.x "-" none sampleState).1
      (Or.inl rfl),
   (claim6_invalid_input_leaves_bodies_unchanged 1 FieldName.x "2" (some 2) sampleState).2
      2 rfl (by decide) (by decide)⟩

/-- C7: a mass edit whose text parses to a negative number commits 0
for every body carrying the edited id, and every edit operation
preserves the invariant that all committed masses are nonnegative. -/
theorem claim7_negative_mass_clamped_to_zero :
    ∀ (id : ℤ) (valueString : String) (v : ℝ) (s : SimState),
      (valueString ≠ "-" → valueString ≠ "" → v < 0 →
        ∀ b ∈ (handleInputChange id FieldName.mass valueString (some v) s).editableBodies,
          b.id = id → b.mass = 0) ∧
      (∀ (field : FieldName) (parsed : Option ℝ),
        (∀ b ∈ s.editableBodies, 0 ≤ b.mass) →
        ∀ b ∈ (handleInputChange id field valueString parsed s).editableBodies, 0 ≤ b.mass) := by
  intro id vs v s
  constructor
  · intro h1 h2 hneg b hb hbid
    have hb' : (handleInputChange id FieldName.mass vs (some v) s).editableBodies =
        updateBodyValue id FieldName.mass 0 s.editableBodies := by
      simp [handleInputChange, h1, h2, hneg]
    rw [hb'] at hb
    simp only [updateBodyValue, List.mem_map] at hb
    obtain ⟨a, ha, rfl⟩ := hb
    by_cases hid : a.id ≠ id
    · rw [if_pos hid] at hbid ⊢
      exact absurd hbid hid
    · rw [if_neg hid] at hbid ⊢
  · intro field parsed hall b hb
    cases parsed with
    | none => exact hall b hb
    | some v =>
      simp only [handleInputChange] at hb
      by_cases hvs : vs = "-" ∨ vs = ""
      · rw [if_pos hvs] at hb
        exact hall b hb
      · rw [if_neg hvs] at hb
        simp only [updateBodyValue, List.mem_map] at hb
        obtain ⟨a, ha, rfl⟩ := hb
        by_cases hid : a.id ≠ id
        · rw [if_pos hid]
          exact hall a ha
        · rw [if_neg hid]
          cases field with
          | mass =>
            by_cases hv : v < 0
            · simp [hv]
            · simp [hv]
              exact not_lt.mp hv
          | x => exact hall a ha
          | y => exact hall a ha
          | vx => exact hall a ha
          | vy => exact hall a ha

/-- Witness for C7: editing the mass of body 1 with text parsing to -5
yields mass 0 for the updated body. -/
theorem claim7_witness :
    ({ heavyBody with mass := 0 } : Body).mass = 0 ∧ 0 ≤ heavyBody.mass :=
  ⟨(claim7_negative_mass_clamped_to_zero 1 "x" (-5) sampleState).1
      (by decide) (by decide) (by norm_num)
      { heavyBody with mass := 0 }
      (by
        have hcond : ¬ (("x":String) = "-" ∨ ("x":String) = "") := by decide
        norm_num [handleInputChange, updateBodyValue, sampleState, heavyBody, hcond])
      rfl,
   (claim7_negative_mass_clamped_to_zero 1 "-" 0 sampleState).2 FieldName.x none
      (by
        intro b hb
        simp only [sampleState, List.mem_singleton] at hb
        rw [hb]
        norm_num [heavyBody])
      heavyBody
      (by simp [handleInputChange, sampleState])⟩

lemma accel_two_mirror (rMin : ℝ) (b1 b2 : Body) (hid : b1.id ≠ b2.id) (hm : MirrorPair b1 b2) :
    calculateAccelerationWith rMin b2 [b1, b2] =
      ⟨-(calculateAccelerationWith rMin b1 [b1, b2]).ax,
       -(calculateAccelerationWith rMin b1 [b1, b2]).ay⟩ := by
  obtain ⟨hmass, hx, hy, hvx, hvy⟩ := hm
  simp only [calculateAccelerationWith, List.foldl_cons, List.foldl_nil]
  rw [accelStep_self rMin b1 ⟨0, 0⟩ b1 rfl,
    accelStep_eq_contrib rMin b1 ⟨0, 0⟩ b2 hid,
    accelStep_eq_contrib rMin b2 ⟨0, 0⟩ b1 (fun h => hid h.symm),
    accelStep_self rMin b2 _ b2 rfl]
  simp only [Accel.mk.injEq, accelContrib, zero_add]
  rw [hx, hy, hmass]
  rw [show (b1.position.x - -b1.position.x) ^ 2 + (b1.position.y - -b1.position.y) ^ 2 +
        rMin ^ 2 =
      (-b1.position.x - b1.position.x) ^ 2 + (-b1.position.y - b1.position.y) ^ 2 +
        rMin ^ 2 from by ring]
  constructor <;> ring

lemma mirror_step (rMin : ℝ) (b1 b2 : Body) (hid : b1.id ≠ b2.id) (hm : MirrorPair b1 b2) :
    MirrorPair (updateBody rMin [b1, b2] b1) (updateBody rMin [b1, b2] b2) := by
  have ha := accel_two_mirror rMin b1 b2 hid hm
  obtain ⟨hmass, hx, hy, hvx, hvy⟩ := hm
  unfold updateBody
  rw [ha]
  dsimp only
  refine ⟨hmass, ?_, ?_, ?_, ?_⟩
  · rw [hx, hvx]; ring
  · rw [hy, hvy]; ring
  · rw [hvx]; ring
  · rw [hvy]; ring

lemma mirror_iterate (n : ℕ) : ∀ b1 b2 : Body, b1.id ≠ b2.id → MirrorPair b1 b2 →
    ∃ c1 c2, updateSimulation^[n] [b1, b2] = [c1, c2] ∧ MirrorPair c1 c2 ∧
      c1.id = b1.id ∧ c2.id = b2.id := by
  induction n with
  | zero => exact fun b1 b2 _ hm => ⟨b1, b2, rfl, hm, rfl, rfl⟩
  | succ n ih =>
    intro b1 b2 hid hm
    have hm' := mirror_step 0.5 b1 b2 hid hm
    obtain ⟨c1, c2, hc, hmc, hc1, hc2⟩ :=
      ih (updateBody 0.5 [b1, b2] b1) (updateBody 0.5 [b1, b2] b2) hid hm'
    refine ⟨c1, c2, ?_, hmc, hc1, hc2⟩
    rw [Function.iterate_succ_apply]
    exact hc

/-- Predicate: the list consists of exactly two bodies that form a
mirror pair. -/
def MirrorList : List Body → Prop
  | [c1, c2] => MirrorPair c1 c2
  | _ => False

/-- C8: a two-body system of equal masses with exactly opposite
positions and velocities stays exactly mirror-symmetric after any
number of `updateSimulation` steps, so the mass-weighted sum of
positions (hence the center of mass) stays at the origin. -/
theorem claim8_symmetric_pair_com_fixed :
    ∀ (n : ℕ) (b1 b2 : Body), b1.id ≠ b2.id → MirrorPair b1 b2 →
      MirrorList (updateSimulation^[n] [b1, b2]) ∧
      ((updateSimulation^[n] [b1, b2]).map fun b => b.mass * b.position.x).sum = 0 ∧
      ((updateSimulation^[n] [b1, b2]).map fun b => b.mass * b.position.y).sum = 0 := by
  intro n b1 b2 hid hm
  obtain ⟨c1, c2, hc, hmc, _, _⟩ := mirror_iterate n b1 b2 hid hm
  rw [hc]
  obtain ⟨hmass, hx, hy, hvx2, hvy2⟩ := hmc
  refine ⟨⟨hmass, hx, hy, hvx2, hvy2⟩, ?_, ?_⟩
  · simp only [List.map_cons, List.map_nil, List.sum_cons, List.sum_nil]
    rw [hmass, hx]
    ring
  · simp only [List.map_cons, List.map_nil, List.sum_cons, List.sum_nil]
    rw [hmass, hy]
    ring

/-- Concrete mirror pair for the C8 witness. -/
def mirrorBodyA : Body :=
  { id := 1, position := ⟨100, 0⟩, velocity := ⟨0, 2⟩, mass := 500, radius := 5, color := "#FFD700" }

/-- Mirror image of `mirrorBodyA`. -/
def mirrorBodyB : Body :=
  { id := 2, position := ⟨-100, 0⟩, velocity := ⟨0, -2⟩, mass := 500, radius := 5, color := "#ADD8E6" }

/-- Witness for C8: one step of the concrete symmetric pair. -/
theorem claim8_witness :
    MirrorList (updateSimulation^[1] [mirrorBodyA, mirrorBodyB]) ∧
    ((updateSimulation^[1] [mirrorBodyA, mirrorBodyB]).map fun b => b.mass * b.position.x).sum = 0 ∧
    ((updateSimulation^[1] [mirrorBodyA, mirrorBodyB]).map fun b => b.mass * b.position.y).sum = 0 :=
  claim8_symmetric_pair_com_fixed 1 mirrorBodyA mirrorBodyB (by decide)
    ⟨rfl, rfl, by norm_num [mirrorBodyA, mirrorBodyB], by norm_num [mirrorBodyA, mirrorBodyB], rfl⟩

end NBody
